import Mathlib

/-!
Verification development for the LiveKit + Gemini Live bridge repository.

The repository has two source files:
* `app/src/index.ts` — the server-side bridge: one downstream (browser)
  WebSocket is paired with one upstream (Gemini) WebSocket; client frames
  are translated to upstream envelopes and upstream frames are wrapped and
  forwarded downstream.
* the SPA main module — client-side audio capture (resampling to 16 kHz,
  PCM16 encoding, base64 transport) and jitter-buffered playback of model
  audio with interruption support.

We embed the relevant pure functions over `ℚ`/`ℤ`/`ℕ` (JavaScript numbers
are modelled as exact rationals, byte strings as `List ℕ`, machine int16
conversion as explicit mod-2^16 arithmetic) and the event-driven server
handlers as a step function on an explicit session state.
-/

/-! ### JavaScript numeric primitives -/

/-- `Math.round(q)` = `⌊q + 0.5⌋` (round half toward +∞). -/
def jsRound (q : ℚ) : ℤ := ⌊q + 1/2⌋

/-- ECMAScript `truncate` (toward zero), used by `ToInt16` / `ToIndex`. -/
def jsTrunc (q : ℚ) : ℤ := if 0 ≤ q then ⌊q⌋ else ⌈q⌉

/-- ECMAScript `ToInt16` applied to an integer: wrap modulo 2^16 into
`[-32768, 32767]`.  This is what assignment into an `Int16Array` does
after truncation. -/
def toInt16 (i : ℤ) : ℤ :=
  if 32768 ≤ i % 65536 then i % 65536 - 65536 else i % 65536

/-- `Math.max(-1, Math.min(1, x))` — the clamp used by the resampler. -/
def clamp1 (q : ℚ) : ℚ := max (-1) (min 1 q)

/-- One quantized sample, transcribing
`const s = Math.max(-1, Math.min(1, v)); result[i] = s < 0 ? s * 0x8000 : s * 0x7fff;`
including the implicit `ToInt16` conversion performed by the
`Int16Array` element store. -/
def pcm16Sample (x : ℚ) : ℤ :=
  toInt16 (jsTrunc (if clamp1 x < 0 then clamp1 x * 32768 else clamp1 x * 32767))

/-! ### The resampler `downsampleTo16k` (SPA main module)

The `while (offsetResult < result.length)` loop increments `offsetResult`
by exactly one per iteration, so it runs exactly `newLength` times; we
encode it with a fuel argument equal to `newLength - offsetResult`. -/

/-- Loop body of `downsampleTo16k`'s decimation loop.  The window
`(buffer.drop offsetBuffer).take (nextOffsetBuffer - offsetBuffer)` is the
list of samples visited by
`for (let i = offsetBuffer; i < nextOffsetBuffer && i < buffer.length; i++)`,
`window.sum` is `accum`, `window.length` is `count`. -/
def dsLoop (buffer : List ℚ) (ratio : ℚ) : ℕ → ℕ → ℕ → List ℤ
  | _, _, 0 => []
  | offsetResult, offsetBuffer, fuel + 1 =>
      let nextOffsetBuffer := (jsRound (((offsetResult : ℚ) + 1) * ratio)).toNat
      let window := (buffer.drop offsetBuffer).take (nextOffsetBuffer - offsetBuffer)
      pcm16Sample (window.sum / (max 1 window.length : ℚ)) ::
        dsLoop buffer ratio (offsetResult + 1) nextOffsetBuffer fuel

/-- `downsampleTo16k(buffer, sampleRate)`.  The module variable
`geminiInputSampleRate` (set to 16000 from `/config`) is passed explicitly
as `target`. -/
def downsampleTo16k (buffer : List ℚ) (sampleRate target : ℕ) : List ℤ :=
  if sampleRate = target then
    buffer.map pcm16Sample
  else
    let ratio : ℚ := (sampleRate : ℚ) / (target : ℚ)
    let newLength := (jsRound ((buffer.length : ℚ) / ratio)).toNat
    dsLoop buffer ratio 0 0 newLength

/-- The input-time window of output sample `k`:
indices `[Math.round(k * ratio), Math.round((k+1) * ratio))` clipped to
the buffer. -/
def dsWindow (buffer : List ℚ) (ratio : ℚ) (k : ℕ) : List ℚ :=
  let lo := (jsRound ((k : ℚ) * ratio)).toNat
  let hi := (jsRound (((k : ℚ) + 1) * ratio)).toNat
  (buffer.drop lo).take (hi - lo)

/-- The value of output sample `k` of the decimation branch: the quantized,
clamped average (with divisor `max 1 count`) of its window. -/
def dsSample (buffer : List ℚ) (ratio : ℚ) (k : ℕ) : ℤ :=
  pcm16Sample ((dsWindow buffer ratio k).sum / (max 1 (dsWindow buffer ratio k).length : ℚ))

/-- What the specification's words claim for a quantized sample: clamp to
`[-1,1]`, scale, and round **to nearest** (instead of the `Int16Array`
truncation actually performed by the code).  Used only to compare the
spec's wording against the source. -/
def pcm16SampleSpecRounded (x : ℚ) : ℤ :=
  jsRound (if clamp1 x < 0 then clamp1 x * 32768 else clamp1 x * 32767)

/-! ### Server-side bridge (`app/src/index.ts`)

One downstream (browser) WebSocket is handled by `wss.on("connection")`;
it spawns one upstream `geminiWs` WebSocket.  We model the parsed client
frames, the downstream frames the server sends, the upstream envelopes it
sends, and the event handlers as a step function producing an ordered
action list. -/

/-- A parsed client frame (`parseJson` result).  `none` at the use sites
stands for a parse failure or a missing/empty `type` field. -/
inductive ClientMsg where
  | ping
  | audio (audioData : Option String) (mimeType : Option String)
  | audioStreamEnd
  | textTurn (turnData : Option String)
  | other (tag : String)
deriving DecidableEq

/-- A parsed upstream (Gemini) message.  The bridge only inspects whether
the object has a `setupComplete` key; the rest is forwarded opaquely and
is abstracted by `raw`. -/
structure UpstreamMsg where
  setupComplete : Bool
  raw : String
deriving DecidableEq

/-- Frames the server sends downstream, in the shapes built by
`sendJson(client, ...)`. -/
inductive DownFrame where
  | errorFrame (message : String)             -- \x7btype:"error", message\x7d
  | pong                                      -- \x7btype:"pong"\x7d
  | ready                                     -- \x7btype:"ready"\x7d
  | statusConnected                           -- \x7btype:"status", status:"gemini_connected"\x7d
  | statusClosed (code : ℕ) (reason : String) -- \x7btype:"status", status:"gemini_closed", code, reason\x7d
  | gemini (message : UpstreamMsg)            -- \x7btype:"gemini", message\x7d
deriving DecidableEq

/-- Envelopes the server sends upstream via `sendJson(geminiWs, ...)`. -/
inductive UpFrame where
  | setup                                          -- buildGeminiSetup()
  | realtimeAudio (audioData : String) (mimeType : String)
  | realtimeAudioStreamEnd
  | clientContentTurn (turns : String)
deriving DecidableEq

/-- One observable effect of an event handler, in emission order. -/
inductive BridgeAction where
  | sendDown (f : DownFrame)
  | sendUp (f : UpFrame)
  | closeDown (code : ℕ) (reason : String)
  | connectUp
deriving DecidableEq

/-- Per-session state: whether `geminiWs.readyState === WebSocket.OPEN`. -/
structure SessionState where
  upstreamOpen : Bool
deriving DecidableEq

/-- An event delivered to the session's handlers. -/
inductive BridgeEvent where
  | upstreamOpen
  | upstreamMsg (m : Option UpstreamMsg)
  | upstreamClose (code : ℕ) (reason : String)
  | clientMsg (m : Option ClientMsg)
deriving DecidableEq

/-- `client.on("message")`, lines 214–263 of `app/src/index.ts`.
`upstreamOpen` is `geminiWs.readyState === WebSocket.OPEN`. -/
def handleClientMessage (upstreamOpen : Bool) (msg : Option ClientMsg) : List BridgeAction :=
  match msg with
  | none => [.sendDown (.errorFrame "Invalid client message.")]
  | some .ping => [.sendDown .pong]
  | some (.audio d mt) =>
      if upstreamOpen then
        match d with
        | none => [.sendDown (.errorFrame "audio data missing.")]
        | some v => [.sendUp (.realtimeAudio v (mt.getD "audio/pcm;rate=16000"))]
      else [.sendDown (.errorFrame "Gemini upstream not ready.")]
  | some .audioStreamEnd =>
      if upstreamOpen then [.sendUp .realtimeAudioStreamEnd]
      else [.sendDown (.errorFrame "Gemini upstream not ready.")]
  | some (.textTurn d) =>
      if upstreamOpen then [.sendUp (.clientContentTurn (d.getD ""))]
      else [.sendDown (.errorFrame "Gemini upstream not ready.")]
  | some (.other tag) =>
      if upstreamOpen then [.sendDown (.errorFrame ("Unknown message type: " ++ tag))]
      else [.sendDown (.errorFrame "Gemini upstream not ready.")]

/-- The four `geminiWs`/`client` event handlers combined into a step
function: given the session state and an event, the next state and the
ordered list of emitted actions. -/
def bridgeStep (st : SessionState) (ev : BridgeEvent) : SessionState × List BridgeAction :=
  match ev with
  | .upstreamOpen =>
      (⟨true⟩, [.sendUp .setup, .sendDown .statusConnected])
  | .upstreamMsg none => (st, [])
  | .upstreamMsg (some m) =>
      (st, (if m.setupComplete then [.sendDown .ready] else []) ++ [.sendDown (.gemini m)])
  | .upstreamClose c r =>
      (⟨false⟩, [.sendDown (.statusClosed c r), .closeDown 1011 "Gemini upstream closed"])
  | .clientMsg m => (st, handleClientMessage st.upstreamOpen m)

/-- Run a whole session trace, concatenating emitted actions in order. -/
def bridgeRun (st : SessionState) : List BridgeEvent → SessionState × List BridgeAction
  | [] => (st, [])
  | ev :: evs =>
      ((bridgeRun (bridgeStep st ev).1 evs).1,
        (bridgeStep st ev).2 ++ (bridgeRun (bridgeStep st ev).1 evs).2)

/-- State when a downstream connection is accepted: no upstream socket
is open yet. -/
def initialSession : SessionState := ⟨false⟩

/-- `wss.on("connection")` pre-checks, lines 171–182: feature flag, then
credential, then the upstream connection attempt. -/
def handleConnection (enableGeminiBridge : Bool) (geminiApiKey : String) : List BridgeAction :=
  if enableGeminiBridge then
    if geminiApiKey = "" then
      [.sendDown (.errorFrame "GEMINI_API_KEY is not configured."), .closeDown 1013 "Missing API key"]
    else [.connectUp]
  else
    [.sendDown (.errorFrame "Gemini bridge is disabled."), .closeDown 1013 "Gemini bridge disabled"]

/-- Is this action the upstream forwarding of a client audio chunk? -/
def isAudioForward : BridgeAction → Bool
  | .sendUp (.realtimeAudio _ _) => true
  | _ => false

/-! ### Playback scheduler (SPA main module)

Module state: the `geminiPlaying` set (scheduled `AudioBufferSourceNode`s,
identified here by `ℕ` ids), the timeline cursor `geminiOutputTime`, and
the `geminiPlaybackPrimed` flag.  Times are rationals on the
`AudioContext` clock. -/

structure PlaybackState where
  playing : List ℕ
  outputTime : ℚ
  primed : Bool
deriving DecidableEq

/-- `stopGeminiPlayback()`: stops every tracked source (returned as the
second component), clears the tracking set, resets the primed flag, and
resets the cursor to `geminiAudioContext.currentTime` (or `0` when no
audio context exists, modelled by `none`). -/
def stopGeminiPlayback (ctxTime : Option ℚ) (st : PlaybackState) :
    PlaybackState × List ℕ :=
  (⟨[], ctxTime.getD 0, false⟩, st.playing)

/-- The scheduling tail of `playGeminiAudio` (after decoding): lead-in is
`0.02` s when primed, `0.2` s for the first buffer of a burst;
`startAt = max(ctx.currentTime + leadIn, geminiOutputTime)`; the cursor
advances by the buffer duration and the source joins the tracking set.
Returns the new state and `startAt`. -/
def playGeminiAudio (st : PlaybackState) (now dur : ℚ) (src : ℕ) :
    PlaybackState × ℚ :=
  (⟨src :: st.playing, (max (now + (if st.primed then 1/50 else 1/5)) st.outputTime) + dur,
      true⟩,
    max (now + (if st.primed then 1/50 else 1/5)) st.outputTime)

/-! ### Base64 transport (`decodeBase64ToInt16` / `int16ToBase64`)

Byte strings are `List ℕ` of values `< 256`; base64 text is the `List ℕ`
of character codes.  `btoa`/`atob` model the browser primitives on
canonical base64 ('=' is code 61). -/

/-- The base64 alphabet: sextet value to character code. -/
def b64Char (n : ℕ) : ℕ :=
  if n < 26 then 65 + n
  else if n < 52 then 97 + (n - 26)
  else if n < 62 then 48 + (n - 52)
  else if n = 62 then 43
  else 47

/-- Inverse of the alphabet on non-pad characters. -/
def b64DecChar (c : ℕ) : Option ℕ :=
  if 65 ≤ c ∧ c ≤ 90 then some (c - 65)
  else if 97 ≤ c ∧ c ≤ 122 then some (26 + (c - 97))
  else if 48 ≤ c ∧ c ≤ 57 then some (52 + (c - 48))
  else if c = 43 then some 62
  else if c = 47 then some 63
  else none

/-- `btoa`: encode a byte list in groups of three. -/
def btoa : List ℕ → List ℕ
  | [] => []
  | [b1] => [b64Char (b1 / 4), b64Char (b1 % 4 * 16), 61, 61]
  | [b1, b2] =>
      [b64Char (b1 / 4), b64Char (b1 % 4 * 16 + b2 / 16), b64Char (b2 % 16 * 4), 61]
  | b1 :: b2 :: b3 :: rest =>
      b64Char (b1 / 4) :: b64Char (b1 % 4 * 16 + b2 / 16) ::
        b64Char (b2 % 16 * 4 + b3 / 64) :: b64Char (b3 % 64) :: btoa rest

/-- `atob`: decode base64 in groups of four; `none` models the exception
thrown on malformed input. -/
def atob : List ℕ → Option (List ℕ)
  | [] => some []
  | c1 :: c2 :: c3 :: c4 :: rest =>
      (b64DecChar c1).bind fun s1 =>
      (b64DecChar c2).bind fun s2 =>
      if c3 = 61 ∧ c4 = 61 ∧ rest = [] then
        some [s1 * 4 + s2 / 16]
      else if c4 = 61 ∧ rest = [] then
        (b64DecChar c3).map fun s3 => [s1 * 4 + s2 / 16, s2 % 16 * 16 + s3 / 4]
      else
        (b64DecChar c3).bind fun s3 =>
        (b64DecChar c4).bind fun s4 =>
        (atob rest).map fun bs =>
          (s1 * 4 + s2 / 16) :: (s2 % 16 * 16 + s3 / 4) :: (s3 % 4 * 64 + s4) :: bs
  | _ => none

/-- The `Int16Array` view of a decoded byte string:
`new Int16Array(binary.length / 2)` — ECMAScript `ToIndex` truncates the
fractional length `n/2` of an odd-length input to `⌊n/2⌋` — filled by
`view.getInt16(i * 2, true)` (little-endian, sign via `toInt16`). -/
def bytesToInt16LE (bs : List ℕ) : List ℤ :=
  (List.range (bs.length / 2)).map fun i =>
    toInt16 ((bs.getD (2 * i) 0 : ℤ) + 256 * (bs.getD (2 * i + 1) 0 : ℤ))

/-- `decodeBase64ToInt16(base64)`. -/
def decodeBase64ToInt16 (base64 : List ℕ) : Option (List ℤ) :=
  (atob base64).map bytesToInt16LE

/-- The byte image of an `Int16Array` written by
`view.setInt16(i * 2, data[i], true)`: each sample contributes its low
byte then its high byte of the two's-complement representation. -/
def int16ToBytesLE (data : List ℤ) : List ℕ :=
  data.flatMap fun v => [(v % 65536).toNat % 256, (v % 65536).toNat / 256]

/-- `int16ToBase64(data)`: serialize little-endian then `btoa`.  (The
source builds the intermediate string in `0x8000`-sized chunks of
`String.fromCharCode`; concatenating the chunks yields exactly the byte
list.) -/
def int16ToBase64 (data : List ℤ) : List ℕ :=
  btoa (int16ToBytesLE data)

/-! ### Theorems about the embedded definitions -/

/-! ### Basic lemmas about the quantizer -/

theorem toInt16_eq_self {i : ℤ} (h1 : -32768 ≤ i) (h2 : i ≤ 32767) :
    toInt16 i = i := by
  unfold toInt16
  omega

theorem clamp1_le (q : ℚ) : clamp1 q ≤ 1 := by
  unfold clamp1
  apply max_le
  · norm_num
  · exact min_le_left _ _

theorem neg_one_le_clamp1 (q : ℚ) : -1 ≤ clamp1 q := le_max_left _ _

theorem pcm16Sample_range (x : ℚ) :
    -32768 ≤ pcm16Sample x ∧ pcm16Sample x ≤ 32767 := by
  unfold pcm16Sample
  have hlo : -1 ≤ clamp1 x := neg_one_le_clamp1 x
  have hhi : clamp1 x ≤ 1 := clamp1_le x
  by_cases hneg : clamp1 x < 0
  · rw [if_pos hneg]
    have hv1 : (-32768 : ℚ) ≤ clamp1 x * 32768 := by nlinarith
    have hv2 : clamp1 x * 32768 ≤ 0 := by nlinarith
    have htr : jsTrunc (clamp1 x * 32768) = ⌈clamp1 x * 32768⌉ := by
      unfold jsTrunc
      by_cases hz : 0 ≤ clamp1 x * 32768
      · rw [if_pos hz]
        have h0 : clamp1 x * 32768 = 0 := le_antisymm hv2 hz
        rw [h0]
        norm_num
      · rw [if_neg hz]
    rw [htr]
    have hc1 : (-32768 : ℤ) ≤ ⌈clamp1 x * 32768⌉ := by
      have h := Int.ceil_le_ceil (α := ℚ) (a := (-32768 : ℚ)) hv1
      have h32 : ⌈(-32768 : ℚ)⌉ = (-32768 : ℤ) := by
        rw [show ((-32768 : ℚ)) = (((-32768 : ℤ) : ℚ)) by norm_num, Int.ceil_intCast]
      omega
    have hc2 : ⌈clamp1 x * 32768⌉ ≤ 0 := by
      rw [Int.ceil_le]
      exact_mod_cast hv2
    rw [toInt16_eq_self hc1 (by omega)]
    omega
  · rw [if_neg hneg]
    push_neg at hneg
    have hv1 : (0 : ℚ) ≤ clamp1 x * 32767 := by nlinarith
    have hv2 : clamp1 x * 32767 ≤ 32767 := by nlinarith
    have htr : jsTrunc (clamp1 x * 32767) = ⌊clamp1 x * 32767⌋ := by
      unfold jsTrunc
      rw [if_pos hv1]
    rw [htr]
    have hf1 : (0 : ℤ) ≤ ⌊clamp1 x * 32767⌋ := Int.floor_nonneg.mpr hv1
    have hf2 : ⌊clamp1 x * 32767⌋ ≤ 32767 := by
      have h := Int.floor_le_floor (α := ℚ) (b := (32767 : ℚ)) hv2
      have h32 : ⌊(32767 : ℚ)⌋ = (32767 : ℤ) := by
        rw [show ((32767 : ℚ)) = (((32767 : ℤ) : ℚ)) by norm_num, Int.floor_intCast]
      omega
    rw [toInt16_eq_self (by omega) hf2]
    omega

theorem pcm16Sample_zero : pcm16Sample 0 = 0 := by
  unfold pcm16Sample clamp1 jsTrunc toInt16
  norm_num

/-! ### Characterization of the decimation loop -/

theorem dsLoop_eq (buffer : List ℚ) (ratio : ℚ) :
    ∀ (fuel k : ℕ),
      dsLoop buffer ratio k (jsRound ((k : ℚ) * ratio)).toNat fuel =
        (List.range fuel).map (fun j => dsSample buffer ratio (k + j))
  | 0, k => by simp [dsLoop]
  | fuel + 1, k => by
      rw [dsLoop, List.range_succ_eq_map, List.map_cons, List.map_map]
      have hcast : ((k : ℚ) + 1) = (((k + 1 : ℕ) : ℚ)) := by push_cast; ring
      have hrec := dsLoop_eq buffer ratio fuel (k + 1)
      have htail : dsLoop buffer ratio (k + 1) (jsRound (((k : ℚ) + 1) * ratio)).toNat fuel =
          List.map ((fun j => dsSample buffer ratio (k + j)) ∘ Nat.succ) (List.range fuel) := by
        rw [hcast, hrec]
        apply List.map_congr_left
        intro j _
        have hj : (k + 1) + j = k + (Nat.succ j) := by omega
        simp only [Function.comp_apply, hj]
      rw [htail]
      rfl

theorem downsampleTo16k_eq_map (buffer : List ℚ) (R T : ℕ) (hne : R ≠ T) :
    downsampleTo16k buffer R T =
      (List.range (jsRound ((buffer.length : ℚ) / ((R : ℚ) / (T : ℚ)))).toNat).map
        (fun k => dsSample buffer ((R : ℚ) / (T : ℚ)) k) := by
  unfold downsampleTo16k
  rw [if_neg hne]
  have h0 : (jsRound (((0 : ℕ) : ℚ) * ((R : ℚ) / (T : ℚ)))).toNat = 0 := by
    norm_num [jsRound]
  have := dsLoop_eq buffer ((R : ℚ) / (T : ℚ))
    ((jsRound ((buffer.length : ℚ) / ((R : ℚ) / (T : ℚ)))).toNat) 0
  rw [h0] at this
  rw [this]
  simp

theorem downsampleTo16k_length (buffer : List ℚ) (R T : ℕ) (hne : R ≠ T) :
    (downsampleTo16k buffer R T).length =
      (jsRound ((buffer.length : ℚ) / ((R : ℚ) / (T : ℚ)))).toNat := by
  rw [downsampleTo16k_eq_map buffer R T hne]
  simp

theorem downsampleTo16k_getElem (buffer : List ℚ) (R T : ℕ) (hne : R ≠ T) (k : ℕ)
    (hk : k < (downsampleTo16k buffer R T).length) :
    (downsampleTo16k buffer R T)[k]? = some (dsSample buffer ((R : ℚ) / (T : ℚ)) k) := by
  rw [downsampleTo16k_length buffer R T hne] at hk
  rw [downsampleTo16k_eq_map buffer R T hne]
  simp [List.getElem?_map, List.getElem?_range, hk]

theorem downsampleTo16k_range (buffer : List ℚ) (R T : ℕ) :
    ∀ x ∈ downsampleTo16k buffer R T, -32768 ≤ x ∧ x ≤ 32767 := by
  intro x hx
  by_cases hne : R = T
  · rw [downsampleTo16k, if_pos hne] at hx
    obtain ⟨y, _, rfl⟩ := List.mem_map.mp hx
    exact pcm16Sample_range y
  · rw [downsampleTo16k_eq_map buffer R T hne] at hx
    obtain ⟨k, _, rfl⟩ := List.mem_map.mp hx
    exact pcm16Sample_range _

theorem dsSample_of_empty_window (buffer : List ℚ) (ratio : ℚ) (k : ℕ)
    (h : (dsWindow buffer ratio k).length = 0) : dsSample buffer ratio k = 0 := by
  unfold dsSample
  rw [List.length_eq_zero.mp h]
  simpa using pcm16Sample_zero

theorem handleClientMessage_closed (m : Option ClientMsg) :
    ∀ a ∈ handleClientMessage false m, isAudioForward a = false := by
  intro a ha
  rcases m with _ | m
  · simp [handleClientMessage] at ha
    simp [ha, isAudioForward]
  · rcases m with _ | ⟨d, mt⟩ | _ | d | tag <;>
      simp [handleClientMessage] at ha <;>
      simp [ha, isAudioForward]

theorem bridgeStep_upstreamMsg_state (st : SessionState) (m : Option UpstreamMsg) :
    (bridgeStep st (.upstreamMsg m)).1 = st := by
  cases m <;> rfl

/-- In any session trace started from the initial state, every upstream
forwarding of an audio chunk is preceded (strictly earlier in the emitted
action list) by the `status: gemini_connected` frame sent downstream at
upstream transport open. -/
theorem bridgeRun_audio_after_connected :
    ∀ (evs : List BridgeEvent) (st : SessionState) (i : ℕ) (a : BridgeAction),
      ((bridgeRun st evs).2)[i]? = some a → isAudioForward a = true →
      st.upstreamOpen = true ∨
        ∃ j, j < i ∧ ((bridgeRun st evs).2)[j]? = some (.sendDown .statusConnected)
  | [], st, i, a => by simp [bridgeRun]
  | ev :: evs, st, i, a => by
      intro hget hfwd
      simp only [bridgeRun] at hget ⊢
      by_cases hi : i < (bridgeStep st ev).2.length
      · rw [List.getElem?_append_left hi] at hget
        have hmem : a ∈ (bridgeStep st ev).2 := List.getElem?_mem hget
        cases ev with
        | upstreamOpen =>
            exfalso
            have : a = .sendUp .setup ∨ a = .sendDown .statusConnected := by
              simpa [bridgeStep] using hmem
            rcases this with rfl | rfl <;> simp [isAudioForward] at hfwd
        | upstreamMsg m =>
            exfalso
            cases m with
            | none => simp [bridgeStep] at hmem
            | some mm =>
                have hor : a = .sendDown .ready ∨ a = .sendDown (.gemini mm) := by
                  cases hsc : mm.setupComplete with
                  | false => exact Or.inr (by simpa [bridgeStep, hsc] using hmem)
                  | true => simpa [bridgeStep, hsc] using hmem
                rcases hor with rfl | rfl <;> simp [isAudioForward] at hfwd
        | upstreamClose c r =>
            exfalso
            have : a = .sendDown (.statusClosed c r) ∨
                a = .closeDown 1011 "Gemini upstream closed" := by
              simpa [bridgeStep] using hmem
            rcases this with rfl | rfl <;> simp [isAudioForward] at hfwd
        | clientMsg m =>
            by_cases hopen : st.upstreamOpen = true
            · exact Or.inl hopen
            · exfalso
              have hfalse : st.upstreamOpen = false := by
                cases h : st.upstreamOpen
                · rfl
                · exact absurd h hopen
              have hA : (bridgeStep st (.clientMsg m)).2 = handleClientMessage false m := by
                simp [bridgeStep, hfalse]
              rw [hA] at hmem
              have := handleClientMessage_closed m a hmem
              rw [this] at hfwd
              exact Bool.false_ne_true hfwd
      · push_neg at hi
        rw [List.getElem?_append_right hi] at hget
        have IH := bridgeRun_audio_after_connected evs (bridgeStep st ev).1
          (i - (bridgeStep st ev).2.length) a hget hfwd
        rcases IH with hopen' | ⟨j, hji, hj⟩
        · cases ev with
          | upstreamOpen =>
              refine Or.inr ⟨1, ?_, ?_⟩
              · have hlenA : (bridgeStep st BridgeEvent.upstreamOpen).2.length = 2 := rfl
                omega
              · rw [List.getElem?_append_left (by norm_num [bridgeStep] : 1 <
                  (bridgeStep st BridgeEvent.upstreamOpen).2.length)]
                rfl
          | upstreamMsg m =>
              rw [bridgeStep_upstreamMsg_state] at hopen'
              exact Or.inl hopen'
          | upstreamClose c r =>
              exfalso
              simp [bridgeStep] at hopen'
          | clientMsg m => exact Or.inl hopen'
        · refine Or.inr ⟨(bridgeStep st ev).2.length + j, by omega, ?_⟩
          rw [List.getElem?_append_right (by omega)]
          simpa using hj

theorem b64DecChar_b64Char : ∀ n < 64, b64DecChar (b64Char n) = some n := by decide

theorem b64Char_ne_61 : ∀ n < 64, b64Char n ≠ 61 := by decide

theorem atob_btoa : ∀ (bs : List ℕ), (∀ b ∈ bs, b < 256) → atob (btoa bs) = some bs
  | [] => by
      intro _
      rfl
  | [b1] => by
      intro h
      have hb1 : b1 < 256 := h b1 (by simp)
      rw [btoa, atob]
      rw [b64DecChar_b64Char (b1 / 4) (by omega), Option.some_bind,
        b64DecChar_b64Char (b1 % 4 * 16) (by omega), Option.some_bind]
      rw [if_pos ⟨rfl, rfl, rfl⟩]
      congr 1
      have : b1 / 4 * 4 + b1 % 4 * 16 / 16 = b1 := by omega
      rw [this]
  | [b1, b2] => by
      intro h
      have hb1 : b1 < 256 := h b1 (by simp)
      have hb2 : b2 < 256 := h b2 (by simp)
      rw [btoa, atob]
      rw [b64DecChar_b64Char (b1 / 4) (by omega), Option.some_bind,
        b64DecChar_b64Char (b1 % 4 * 16 + b2 / 16) (by omega), Option.some_bind]
      rw [if_neg (by
        intro hcon
        exact b64Char_ne_61 (b2 % 16 * 4) (by omega) hcon.1)]
      rw [if_pos ⟨rfl, rfl⟩]
      rw [b64DecChar_b64Char (b2 % 16 * 4) (by omega), Option.map_some']
      congr 1
      have e1 : b1 / 4 * 4 + (b1 % 4 * 16 + b2 / 16) / 16 = b1 := by omega
      have e2 : (b1 % 4 * 16 + b2 / 16) % 16 * 16 + b2 % 16 * 4 / 4 = b2 := by omega
      rw [e1, e2]
  | b1 :: b2 :: b3 :: rest => by
      intro h
      have hb1 : b1 < 256 := h b1 (by simp)
      have hb2 : b2 < 256 := h b2 (by simp)
      have hb3 : b3 < 256 := h b3 (by simp)
      have hrest : ∀ b ∈ rest, b < 256 := fun b hb => h b (by simp [hb])
      rw [btoa, atob]
      rw [b64DecChar_b64Char (b1 / 4) (by omega), Option.some_bind,
        b64DecChar_b64Char (b1 % 4 * 16 + b2 / 16) (by omega), Option.some_bind]
      rw [if_neg (by
        intro hcon
        exact b64Char_ne_61 (b2 % 16 * 4 + b3 / 64) (by omega) hcon.1)]
      rw [if_neg (by
        intro hcon
        exact b64Char_ne_61 (b3 % 64) (by omega) hcon.1)]
      rw [b64DecChar_b64Char (b2 % 16 * 4 + b3 / 64) (by omega), Option.some_bind,
        b64DecChar_b64Char (b3 % 64) (by omega), Option.some_bind]
      rw [atob_btoa rest hrest, Option.map_some']
      congr 1
      have e1 : b1 / 4 * 4 + (b1 % 4 * 16 + b2 / 16) / 16 = b1 := by omega
      have e2 : (b1 % 4 * 16 + b2 / 16) % 16 * 16 + (b2 % 16 * 4 + b3 / 64) / 4 = b2 := by
        omega
      have e3 : (b2 % 16 * 4 + b3 / 64) % 4 * 64 + b3 % 64 = b3 := by omega
      rw [e1, e2, e3]

theorem bytesToInt16LE_cons2 (lo hi : ℕ) (rest : List ℕ) :
    bytesToInt16LE (lo :: hi :: rest) =
      toInt16 ((lo : ℤ) + 256 * (hi : ℤ)) :: bytesToInt16LE rest := by
  unfold bytesToInt16LE
  have hlen : (lo :: hi :: rest).length / 2 = rest.length / 2 + 1 := by
    simp only [List.length_cons]
    omega
  rw [hlen, List.range_succ_eq_map, List.map_cons, List.map_map]
  congr 1

theorem int16ToBytesLE_cons (v : ℤ) (l : List ℤ) :
    int16ToBytesLE (v :: l) =
      (v % 65536).toNat % 256 :: (v % 65536).toNat / 256 :: int16ToBytesLE l := by
  simp [int16ToBytesLE]

theorem int16_pair_roundtrip (lo hi : ℕ) (hlo : lo < 256) (hhi : hi < 256) :
    ((toInt16 ((lo : ℤ) + 256 * (hi : ℤ)) % 65536).toNat % 256 = lo) ∧
    ((toInt16 ((lo : ℤ) + 256 * (hi : ℤ)) % 65536).toNat / 256 = hi) := by
  unfold toInt16
  split <;> omega

theorem int16ToBytesLE_bytesToInt16LE :
    ∀ (bs : List ℕ), (∀ b ∈ bs, b < 256) → bs.length % 2 = 0 →
      int16ToBytesLE (bytesToInt16LE bs) = bs
  | [] => by
      intro _ _
      rfl
  | [b] => by
      intro _ he
      simp at he
  | lo :: hi :: rest => by
      intro hb he
      have hlo : lo < 256 := hb lo (by simp)
      have hhi : hi < 256 := hb hi (by simp)
      have hrest : ∀ b ∈ rest, b < 256 := fun b h => hb b (by simp [h])
      have herest : rest.length % 2 = 0 := by
        simp only [List.length_cons] at he
        omega
      rw [bytesToInt16LE_cons2, int16ToBytesLE_cons,
        int16ToBytesLE_bytesToInt16LE rest hrest herest,
        (int16_pair_roundtrip lo hi hlo hhi).1, (int16_pair_roundtrip lo hi hlo hhi).2]

theorem bytesToInt16LE_length (bs : List ℕ) :
    (bytesToInt16LE bs).length = bs.length / 2 := by
  simp [bytesToInt16LE]

/-! ### Claims -/

/-- C1, counterexample to the claim as stated: in the session trace
"upstream transport opens, then the client sends an audio frame", the
audio chunk is forwarded upstream although no `ready` frame has been sent
downstream (the upstream `setupComplete` has not arrived yet), and no
error frame is sent either — the server gates forwarding on transport
open, not on the UpstreamReady state. -/
theorem c1_counterexample :
    BridgeAction.sendUp (.realtimeAudio "AAAA" "audio/pcm;rate=16000") ∈
      (bridgeRun initialSession
        [.upstreamOpen, .clientMsg (some (.audio (some "AAAA") none))]).2 ∧
    BridgeAction.sendDown .ready ∉
      (bridgeRun initialSession
        [.upstreamOpen, .clientMsg (some (.audio (some "AAAA") none))]).2 ∧
    (∀ msg, BridgeAction.sendDown (.errorFrame msg) ∉
      (bridgeRun initialSession
        [.upstreamOpen, .clientMsg (some (.audio (some "AAAA") none))]).2) := by
  refine ⟨?_, ?_, ?_⟩ <;>
    simp [bridgeRun, bridgeStep, handleClientMessage, initialSession]

/-- C1, amended: for every session and every event sequence from the
initial state, every audio chunk forwarded upstream is strictly preceded
in the emitted frames by the `status: gemini_connected` frame that marks
upstream transport open (not by `ready`); and an audio frame arriving
while the upstream socket is not open is answered with the single error
frame `Gemini upstream not ready.` and dropped, never forwarded. -/
theorem c1_audio_gating (evs : List BridgeEvent) (i : ℕ) (a : BridgeAction)
    (hget : ((bridgeRun initialSession evs).2)[i]? = some a)
    (hfwd : isAudioForward a = true) :
    (∃ j, j < i ∧ ((bridgeRun initialSession evs).2)[j]? =
        some (.sendDown .statusConnected)) ∧
    (∀ (d mt : Option String),
      handleClientMessage false (some (.audio d mt)) =
        [.sendDown (.errorFrame "Gemini upstream not ready.")]) := by
  constructor
  · rcases bridgeRun_audio_after_connected evs initialSession i a hget hfwd with hopen | hj
    · exact absurd hopen (by simp [initialSession])
    · exact hj
  · intro d mt
    cases d <;> rfl

/-- C1, witness for the amended theorem at a concrete trace: after
upstream open, a forwarded audio chunk sits at index 2 and the
`gemini_connected` status frame precedes it. -/
theorem c1_audio_gating_witness :
    (∃ j, j < 2 ∧ ((bridgeRun initialSession
        [.upstreamOpen, .clientMsg (some (.audio (some "x") none))]).2)[j]? =
      some (.sendDown .statusConnected)) ∧
    (∀ (d mt : Option String),
      handleClientMessage false (some (.audio d mt)) =
        [.sendDown (.errorFrame "Gemini upstream not ready.")]) :=
  c1_audio_gating [.upstreamOpen, .clientMsg (some (.audio (some "x") none))] 2
    (.sendUp (.realtimeAudio "x" "audio/pcm;rate=16000")) rfl rfl

/-- C2, counterexample to the claim as stated: for the single-window input
`[1/20000]` at native rate 24000 and target 16000, the window average is
`1/20000`; the code stores `⌊32767/20000⌋ = 1` (Int16Array conversion
truncates toward zero) while the claimed round-to-nearest quantization of
the same average is `2`. -/
theorem c2_counterexample :
    dsWindow [1/20000] ((24000 : ℚ) / 16000) 0 = [1/20000] ∧
    downsampleTo16k [1/20000] 24000 16000 = [1] ∧
    pcm16SampleSpecRounded (1/20000) = 2 ∧ (1 : ℤ) ≠ 2 := by
  refine ⟨?_, ?_, ?_, by norm_num⟩
  · norm_num [dsWindow, jsRound, List.take_of_length_le]
  · norm_num [downsampleTo16k, dsLoop, jsRound, pcm16Sample, clamp1, jsTrunc, toInt16,
      Int.toNat_ofNat, List.take_of_length_le]
  · norm_num [pcm16SampleSpecRounded, clamp1, jsRound]

/-- C2, amended: for `R > T > 0` the decimation branch produces exactly
`Math.round(n·T/R)` output samples; output `k` is the average of the
input samples in its window `[round(k·R/T), round((k+1)·R/T))` (divisor
guarded by `max 1 count`), clamped to `[-1,1]`, scaled by `0x8000`
(negative) or `0x7fff` (non-negative) and **truncated toward zero** by the
Int16Array store; every output lies in `[-32768, 32767]`. -/
theorem c2_decimation (buffer : List ℚ) (R T : ℕ) (_hT : 0 < T) (hRT : T < R) :
    (downsampleTo16k buffer R T).length =
      (jsRound ((buffer.length : ℚ) * T / R)).toNat ∧
    (∀ k, k < (downsampleTo16k buffer R T).length →
      (downsampleTo16k buffer R T)[k]? =
        some (pcm16Sample ((dsWindow buffer ((R : ℚ) / T) k).sum /
          (max 1 (dsWindow buffer ((R : ℚ) / T) k).length : ℚ)))) ∧
    (∀ x ∈ downsampleTo16k buffer R T, -32768 ≤ x ∧ x ≤ 32767) := by
  have hne : R ≠ T := by omega
  refine ⟨?_, ?_, downsampleTo16k_range buffer R T⟩
  · rw [downsampleTo16k_length buffer R T hne, div_div_eq_mul_div]
  · intro k hk
    exact downsampleTo16k_getElem buffer R T hne k hk

/-- C2, witness at a concrete input: two samples at 32000 Hz decimated to
16000 Hz give exactly one output sample. -/
theorem c2_decimation_witness :
    (0 < 16000) ∧ (16000 < 32000) ∧
    (downsampleTo16k [(1 : ℚ)/2, 1/2] 32000 16000).length = 1 := by
  refine ⟨by norm_num, by norm_num, ?_⟩
  rw [(c2_decimation [(1 : ℚ)/2, 1/2] 32000 16000 (by norm_num) (by norm_num)).1]
  norm_num [jsRound]

/-- C3: decoding the canonical base64 encoding of any even-length byte
sequence with `decodeBase64ToInt16` and re-encoding with `int16ToBase64`
returns the identical base64 character sequence. -/
theorem c3_base64_roundtrip (bs : List ℕ) (hb : ∀ b ∈ bs, b < 256)
    (he : bs.length % 2 = 0) :
    Option.map int16ToBase64 (decodeBase64ToInt16 (btoa bs)) = some (btoa bs) := by
  rw [decodeBase64ToInt16, atob_btoa bs hb, Option.map_some', Option.map_some',
    int16ToBase64, int16ToBytesLE_bytesToInt16LE bs hb he]

/-- C3, witness on the two-byte input `[1, 2]`. -/
theorem c3_base64_roundtrip_witness :
    (∀ b ∈ ([1, 2] : List ℕ), b < 256) ∧ ([1, 2] : List ℕ).length % 2 = 0 ∧
    Option.map int16ToBase64 (decodeBase64ToInt16 (btoa [1, 2])) = some (btoa [1, 2]) :=
  ⟨by decide, by decide, c3_base64_roundtrip [1, 2] (by decide) (by decide)⟩

/-- C4: in every session state, a `ping` client frame produces exactly the
single downstream frame `pong`, the state is unchanged, and nothing is
sent upstream (the ping branch runs before the upstream readiness check). -/
theorem c4_ping_pong (st : SessionState) :
    bridgeStep st (.clientMsg (some .ping)) = (st, [.sendDown .pong]) ∧
    (∀ f : UpFrame,
      BridgeAction.sendUp f ∉ (bridgeStep st (.clientMsg (some .ping))).2) := by
  refine ⟨rfl, ?_⟩
  intro f
  simp [bridgeStep, handleClientMessage]

/-- C5: an upstream close with code `c` and reason `r` emits, in this
order, the downstream frame `status: gemini_closed` carrying `c`/`r` and
then the downstream close with the fixed "upstream gone" code 1011. -/
theorem c5_upstream_close (st : SessionState) (c : ℕ) (r : String) :
    bridgeStep st (.upstreamClose c r) =
      (⟨false⟩, [.sendDown (.statusClosed c r),
        .closeDown 1011 "Gemini upstream closed"]) := rfl

/-- C6: with the bridge feature disabled, every new downstream connection
receives exactly the error frame `Gemini bridge is disabled.` followed by
a close with the "service unavailable" code 1013, and no upstream
connection is attempted. -/
theorem c6_bridge_disabled (geminiApiKey : String) :
    handleConnection false geminiApiKey =
      [.sendDown (.errorFrame "Gemini bridge is disabled."),
        .closeDown 1013 "Gemini bridge disabled"] ∧
    BridgeAction.connectUp ∉ handleConnection false geminiApiKey := by
  refine ⟨rfl, ?_⟩
  simp [handleConnection]

/-- C7: while the upstream socket is open, an `audio` frame without a
`data` field is answered with exactly the error frame
`audio data missing.`; nothing is sent upstream, the downstream connection
is not closed, and the session state is unchanged. -/
theorem c7_audio_data_missing (st : SessionState) (mt : Option String)
    (hopen : st.upstreamOpen = true) :
    bridgeStep st (.clientMsg (some (.audio none mt))) =
      (st, [.sendDown (.errorFrame "audio data missing.")]) ∧
    (∀ f : UpFrame,
      BridgeAction.sendUp f ∉ (bridgeStep st (.clientMsg (some (.audio none mt)))).2) ∧
    (∀ (c : ℕ) (r : String),
      BridgeAction.closeDown c r ∉
        (bridgeStep st (.clientMsg (some (.audio none mt)))).2) := by
  obtain ⟨b⟩ := st
  cases hopen
  exact ⟨rfl, fun f => by simp [bridgeStep, handleClientMessage],
    fun c r => by simp [bridgeStep, handleClientMessage]⟩

/-- C7, witness with the upstream socket open and no declared MIME type. -/
theorem c7_audio_data_missing_witness :
    (SessionState.mk true).upstreamOpen = true ∧
    bridgeStep ⟨true⟩ (.clientMsg (some (.audio none none))) =
      (⟨true⟩, [.sendDown (.errorFrame "audio data missing.")]) :=
  ⟨rfl, (c7_audio_data_missing ⟨true⟩ none rfl).1⟩

/-- C8: an interruption stops exactly the tracked sources, empties the
tracking set, resets the primed flag and the cursor to the clock's current
time `t`; the next buffer scheduled at any later clock time `now` starts
exactly one (cold) lead-in interval `0.2` after `now`. -/
theorem c8_interruption (st : PlaybackState) (t now dur : ℚ) (src : ℕ)
    (hmono : t ≤ now) :
    (stopGeminiPlayback (some t) st).2 = st.playing ∧
    (stopGeminiPlayback (some t) st).1.playing = [] ∧
    (stopGeminiPlayback (some t) st).1.outputTime = t ∧
    (playGeminiAudio (stopGeminiPlayback (some t) st).1 now dur src).2 = now + 1/5 := by
  refine ⟨rfl, rfl, rfl, ?_⟩
  simp only [stopGeminiPlayback, playGeminiAudio, Option.getD_some, Bool.false_eq_true,
    if_false]
  exact max_eq_left (by linarith)

/-- C8, witness: stopping at clock time 1 and scheduling at clock time 2
starts the buffer at 2.2. -/
theorem c8_interruption_witness :
    ((1 : ℚ) ≤ 2) ∧
    (playGeminiAudio (stopGeminiPlayback (some 1) ⟨[3], 7, true⟩).1 2 1 5).2 = 2 + 1/5 :=
  ⟨by norm_num, (c8_interruption ⟨[3], 7, true⟩ 1 2 1 5 (by norm_num)).2.2.2⟩

/-- C9: in the decimation branch the averaging divisor `max 1 count` is
always at least one (so no division by zero), an output window containing
no input samples yields the output sample 0, and every produced sample
lies in the signed 16-bit range `[-32768, 32767]`. -/
theorem c9_resampler_safety (buffer : List ℚ) (R T : ℕ) (hne : R ≠ T) :
    (∀ k, 1 ≤ max 1 (dsWindow buffer ((R : ℚ) / T) k).length) ∧
    (∀ k, k < (downsampleTo16k buffer R T).length →
      (dsWindow buffer ((R : ℚ) / T) k).length = 0 →
      (downsampleTo16k buffer R T)[k]? = some 0) ∧
    (∀ x ∈ downsampleTo16k buffer R T, -32768 ≤ x ∧ x ≤ 32767) := by
  refine ⟨fun k => le_max_left _ _, ?_, downsampleTo16k_range buffer R T⟩
  intro k hk hw
  rw [downsampleTo16k_getElem buffer R T hne k hk,
    dsSample_of_empty_window buffer _ k hw]

/-- C9, witness: upsampling input `[1/2]` from 8000 Hz produces two output
samples; the second window is empty and its output sample is 0. -/
theorem c9_resampler_safety_witness :
    ((8000 : ℕ) ≠ 16000) ∧
    (downsampleTo16k [(1 : ℚ)/2] 8000 16000)[1]? = some 0 := by
  have hlen : (downsampleTo16k [(1 : ℚ)/2] 8000 16000).length = 2 := by
    rw [downsampleTo16k_length [(1 : ℚ)/2] 8000 16000 (by norm_num)]
    have h2 : jsRound ((([(1 : ℚ)/2] : List ℚ).length : ℚ) /
        (((8000 : ℕ) : ℚ) / ((16000 : ℕ) : ℚ))) = 2 := by
      norm_num [jsRound]
    rw [h2]
    rfl
  refine ⟨by norm_num, ?_⟩
  refine (c9_resampler_safety [(1 : ℚ)/2] 8000 16000 (by norm_num)).2.1 1 (by omega) ?_
  norm_num [dsWindow, jsRound]

/-- C10, counterexample to the claim as stated: the base64 encoding of the
odd byte sequence `[7, 8, 9]` decodes to 3 bytes, and `decodeBase64ToInt16`
does **not** throw on it: ECMAScript `ToIndex` truncates the fractional
`Int16Array` length `3/2`, producing the single sample `2055 = 7 + 256·8`
and silently dropping the trailing byte. -/
theorem c10_counterexample :
    Option.map List.length (atob (btoa [7, 8, 9])) = some 3 ∧
    decodeBase64ToInt16 (btoa [7, 8, 9]) = some [2055] := by
  constructor
  · rw [atob_btoa [7, 8, 9] (by decide)]
    rfl
  · rw [decodeBase64ToInt16, atob_btoa [7, 8, 9] (by decide)]
    decide

/-- C10, amended: `decodeBase64ToInt16` is total on every payload `atob`
accepts, of either parity: it returns `⌊n/2⌋` samples for an `n`-byte
decode, dropping the trailing byte when `n` is odd (and dropping nothing
when `n` is even). -/
theorem c10_decode_total (s bs : List ℕ) (h : atob s = some bs) :
    decodeBase64ToInt16 s = some (bytesToInt16LE bs) ∧
    (bytesToInt16LE bs).length = bs.length / 2 := by
  rw [decodeBase64ToInt16, h, Option.map_some']
  exact ⟨rfl, bytesToInt16LE_length bs⟩

/-- C10, witness on the three-byte input `[1, 2, 3]`. -/
theorem c10_decode_total_witness :
    atob (btoa [1, 2, 3]) = some [1, 2, 3] ∧
    decodeBase64ToInt16 (btoa [1, 2, 3]) = some (bytesToInt16LE [1, 2, 3]) ∧
    (bytesToInt16LE [1, 2, 3]).length = ([1, 2, 3] : List ℕ).length / 2 :=
  ⟨by decide, (c10_decode_total (btoa [1, 2, 3]) [1, 2, 3] (by decide)).1,
    (c10_decode_total (btoa [1, 2, 3]) [1, 2, 3] (by decide)).2⟩
